import Mathlib

/-!
Verification of the `spacesettlement` repository's enrichment pipeline
(`netlify/functions/autofill.js`) and record-storage auth gate
(`netlify/functions/items.js`).

The JavaScript is shallowly embedded: JSON values become an inductive
`Json`; JavaScript's property access, truthiness, `String(...)` coercion,
`trim`, `toLowerCase` (modelled for the Basic Latin range; every
character outside `[a-z0-9_-]` is removed downstream by the tag cleaner
anyway) and the regex replacements used by the source are explicit Lean
functions.  `JSON.parse` is modelled by `jsonParse`, a fuel-based
recursive-descent parser covering the JSON fragment the pipeline
manipulates (objects, arrays, escape-free strings, integers, booleans,
null); numbers are modelled as exact integers (JavaScript's doubles agree
with this on every value below 2^53, which covers all year values the
code handles).  Network calls are modelled by passing each fetch's
outcome (`none` = transport error / rejected promise, `some (ok, body)`
= settled response) as an explicit argument to the pure part of each
function.
-/

/-- JSON / JavaScript values as manipulated by `autofill.js`.  `null`
stands for both JS `null` and (at absent-property positions) `undefined`;
property lookup returns `Option Json` with `none` for an absent key. -/
inductive Json where
  | null : Json
  | bool (b : Bool) : Json
  | num (n : Int) : Json
  | str (s : String) : Json
  | arr (elems : List Json) : Json
  | obj (fields : List (String × Json)) : Json

/-- JS property access `v?.k`: `none` models `undefined`. -/
def jsGet (v : Json) (k : String) : Option Json :=
  match v with
  | Json.obj fields => fields.lookup k
  | _ => none

/-- Optional-chained property access `o?.k` on an already optional value. -/
def jsChain (o : Option Json) (k : String) : Option Json :=
  match o with
  | some v => jsGet v k
  | none => none

/-- JS optional index access `o?.[i]` (array element, or object key "i"). -/
def jsIndex (o : Option Json) (i : Nat) : Option Json :=
  match o with
  | some (Json.arr xs) => xs.get? i
  | some (Json.obj fields) => fields.lookup (toString i)
  | _ => none

/-- JS truthiness of a value (NaN is not representable in the model). -/
def Json.truthy : Json → Bool
  | Json.null => false
  | Json.bool b => b
  | Json.num n => n != 0
  | Json.str s => s ≠ ""
  | Json.arr _ => true
  | Json.obj _ => true

/-- `typeof v === "object"` for a non-`null` value: arrays and objects. -/
def jsTypeofObject : Json → Bool
  | Json.arr _ => true
  | Json.obj _ => true
  | _ => false

/-- `Array.isArray(x) ? x : []`, applied to a possibly-absent property. -/
def asArray : Option Json → List Json
  | some (Json.arr xs) => xs
  | _ => []

/-- JS `v || d` where `v` is a possibly-absent property: the default is
taken when the property is absent or falsy. -/
def jsOrElse (o : Option Json) (d : Json) : Json :=
  match o with
  | some v => if v.truthy then v else d
  | none => d

mutual

/-- JS `String(v)` coercion on the modelled values. -/
def jsToString : Json → String
  | Json.null => "null"
  | Json.bool b => cond b "true" "false"
  | Json.num n => toString n
  | Json.str s => s
  | Json.arr xs => jsArrToString xs
  | Json.obj _ => "[object Object]"

/-- JS `Array.prototype.toString` = `join(",")`, with `null`/`undefined`
elements rendered as the empty string. -/
def jsArrToString : List Json → String
  | [] => ""
  | [Json.null] => ""
  | [x] => jsToString x
  | Json.null :: xs => "," ++ jsArrToString xs
  | x :: xs => jsToString x ++ "," ++ jsArrToString xs

end

/-- The JS `\s` / `trim` whitespace class (code points as in ECMA-262). -/
def isJsWs (c : Char) : Bool :=
  let n := c.toNat
  n == 32 || n == 9 || n == 10 || n == 13 || n == 11 || n == 12 ||
  n == 0xa0 || n == 0x1680 || (decide (0x2000 ≤ n) && decide (n ≤ 0x200a)) ||
  n == 0x2028 || n == 0x2029 || n == 0x202f || n == 0x205f || n == 0x3000 ||
  n == 0xfeff

/-- `String.prototype.toLowerCase`, modelled on the Basic Latin range
(`A`–`Z` ↦ `a`–`z`, everything else unchanged). -/
def jsLower (c : Char) : Char :=
  if 65 ≤ c.toNat ∧ c.toNat ≤ 90 then Char.ofNat (c.toNat + 32) else c

/-- Characters allowed by the tag charset `[a-z0-9_-]` (line 346). -/
def isTagChar (c : Char) : Bool :=
  let n := c.toNat
  (decide (97 ≤ n) && decide (n ≤ 122)) ||
  (decide (48 ≤ n) && decide (n ≤ 57)) || n == 95 || n == 45

/-- `a`–`z` or `0`–`9` (the class kept by `toImagePlaceholder`). -/
def isLowerAlnum (c : Char) : Bool :=
  let n := c.toNat
  (decide (97 ≤ n) && decide (n ≤ 122)) || (decide (48 ≤ n) && decide (n ≤ 57))

/-- Drop a maximal run satisfying `p` from the tail of a list. -/
def dropTailWhile (p : Char → Bool) (l : List Char) : List Char :=
  (l.reverse.dropWhile p).reverse

/-- `String.prototype.trim` on a character list. -/
def jsTrimList (l : List Char) : List Char :=
  dropTailWhile isJsWs (l.dropWhile isJsWs)

/-- `String.prototype.trim`. -/
def jsTrim (s : String) : String :=
  String.mk (jsTrimList s.data)

/-- Structural helper for `collapseRuns`: the `inRun` flag records
whether the previous character was part of the current run (in which
case no further underscore is emitted for it). -/
def collapseAux (p : Char → Bool) : Bool → List Char → List Char
  | _, [] => []
  | inRun, c :: cs =>
    if p c then
      if inRun then collapseAux p true cs
      else '_' :: collapseAux p true cs
    else c :: collapseAux p false cs

/-- Replace each maximal run of characters satisfying `p` by a single
underscore: the effect of `.replace(/<class>+/g, "_")`. -/
def collapseRuns (p : Char → Bool) (l : List Char) : List Char :=
  collapseAux p false l

/-- `.replace(/^_+|_+$/g, "")`: strip leading and trailing underscores. -/
def stripUnderscores (l : List Char) : List Char :=
  dropTailWhile (fun c => c == '_') (l.dropWhile (fun c => c == '_'))

/-- JS `String.prototype.length`: UTF-16 code units. -/
def utf16Len (s : String) : Nat :=
  s.data.foldl (fun n c => n + (if c.toNat ≥ 0x10000 then 2 else 1)) 0

/-- The whitespace class of the JSON grammar (used by `JSON.parse`). -/
def isJsonWs (c : Char) : Bool :=
  c == ' ' || c == '\t' || c == '\n' || c == '\r'

/-- Value of a list of decimal digits. -/
def digitsToNat (ds : List Char) : Nat :=
  ds.foldl (fun n c => 10 * n + (c.toNat - 48)) 0

/-- Parse the body of a JSON string literal up to the closing quote.
Escape sequences are outside the modelled fragment and fail. -/
def parseStringBody : List Char → Option (String × List Char)
  | [] => none
  | c :: cs =>
    if c.toNat == 34 then some ("", cs)
    else if c.toNat == 92 then none
    else
      match parseStringBody cs with
      | some (s, r) => some (String.mk (c :: s.data), r)
      | none => none

/-- Parse a nonempty run of decimal digits. -/
def parseDigits (cs : List Char) : Option (Nat × List Char) :=
  let ds := cs.takeWhile Char.isDigit
  if ds = [] then none else some (digitsToNat ds, cs.dropWhile Char.isDigit)

mutual

/-- Fuel-based recursive-descent parser for the JSON fragment used by the
pipeline; models `JSON.parse` (which throws, i.e. returns `none` here, on
malformed input). -/
def parseValue : Nat → List Char → Option (Json × List Char)
  | 0, _ => none
  | fuel + 1, cs =>
    match cs.dropWhile isJsonWs with
    | 'n' :: 'u' :: 'l' :: 'l' :: r => some (Json.null, r)
    | 't' :: 'r' :: 'u' :: 'e' :: r => some (Json.bool true, r)
    | 'f' :: 'a' :: 'l' :: 's' :: 'e' :: r => some (Json.bool false, r)
    | c :: rest =>
      if c.toNat == 123 then
        match rest.dropWhile isJsonWs with
        | d :: rest2 =>
          if d.toNat == 125 then some (Json.obj [], rest2)
          else
            match parseFields fuel (d :: rest2) with
            | some (fs, r) => some (Json.obj fs, r)
            | none => none
        | [] => none
      else if c = '[' then
        match rest.dropWhile isJsonWs with
        | d :: rest2 =>
          if d = ']' then some (Json.arr [], rest2)
          else
            match parseElems fuel (d :: rest2) with
            | some (vs, r) => some (Json.arr vs, r)
            | none => none
        | [] => none
      else if c.toNat == 34 then
        match parseStringBody rest with
        | some (s, r) => some (Json.str s, r)
        | none => none
      else if c = '-' then
        match parseDigits rest with
        | some (n, r) => some (Json.num (-(n : Int)), r)
        | none => none
      else if c.isDigit then
        match parseDigits (c :: rest) with
        | some (n, r) => some (Json.num (n : Int), r)
        | none => none
      else none
    | [] => none

/-- Parse the fields of a JSON object after the opening brace. -/
def parseFields : Nat → List Char → Option (List (String × Json) × List Char)
  | 0, _ => none
  | fuel + 1, cs =>
    match cs.dropWhile isJsonWs with
    | c :: rest =>
      if c.toNat == 34 then
        match parseStringBody rest with
        | some (k, r1) =>
          match r1.dropWhile isJsonWs with
          | d :: r2 =>
            if d = ':' then
              match parseValue fuel r2 with
              | some (v, r3) =>
                match r3.dropWhile isJsonWs with
                | e :: r4 =>
                  if e = ',' then
                    match parseFields fuel r4 with
                    | some (fs, r5) => some ((k, v) :: fs, r5)
                    | none => none
                  else if e.toNat == 125 then some ([(k, v)], r4)
                  else none
                | [] => none
              | none => none
            else none
          | [] => none
        | none => none
      else none
    | [] => none

/-- Parse the elements of a JSON array after the opening bracket. -/
def parseElems : Nat → List Char → Option (List Json × List Char)
  | 0, _ => none
  | fuel + 1, cs =>
    match parseValue fuel cs with
    | some (v, r) =>
      match r.dropWhile isJsonWs with
      | e :: r2 =>
        if e = ',' then
          match parseElems fuel r2 with
          | some (vs, r3) => some (v :: vs, r3)
          | none => none
        else if e = ']' then some ([v], r2)
        else none
      | [] => none
    | none => none

end

/-- Model of `JSON.parse`: `none` models a thrown `SyntaxError`. -/
def jsonParse (s : String) : Option Json :=
  match parseValue (s.length + 1) s.data with
  | some (j, rest) => if rest.dropWhile isJsonWs = [] then some j else none
  | none => none

/-- JS strict equality `o === "s"` between a possibly-absent property and
a string literal. -/
def jsStrEq (o : Option Json) (s : String) : Bool :=
  match o with
  | some (Json.str t) => t == s
  | _ => false

/-- `c.type === "output_json"` (line 49). -/
def isOutputJsonType (c : Json) : Bool :=
  jsStrEq (jsGet c "type") "output_json"

/-- `c.type === "output_text" || c.type === "text"` (line 57). -/
def isTextType (c : Json) : Bool :=
  jsStrEq (jsGet c "type") "output_text" || jsStrEq (jsGet c "type") "text"

/-- First pass of `extractStructuredJson` over one `content` array
(lines 48–51): return the first `json` field that is a truthy value of
object type; the typed `output_json` check of line 49 is subsumed by the
untyped check of line 50 within the same block, and both are embedded. -/
def firstPassContent : List Json → Option Json
  | [] => none
  | c :: rest =>
    match jsGet c "json" with
    | some v =>
      if c.truthy && isOutputJsonType c && v.truthy && jsTypeofObject v then some v
      else if c.truthy && v.truthy && jsTypeofObject v then some v
      else firstPassContent rest
    | none => firstPassContent rest

/-- First pass over the `output` array (lines 46–52). -/
def firstPassOutputs : List Json → Option Json
  | [] => none
  | out :: rest =>
    match firstPassContent (asArray (jsGet out "content")) with
    | some v => some v
    | none => firstPassOutputs rest

/-- Second pass over one `content` array (lines 56–66): the first text
block whose trimmed string parses as JSON; note that the parsed value is
returned as-is, so a block whose text is `"null"` returns JS `null`. -/
def secondPassContent : List Json → Option Json
  | [] => none
  | c :: rest =>
    if c.truthy && isTextType c then
      match jsGet c "text" with
      | some (Json.str s) =>
        if jsTrim s = "" then secondPassContent rest
        else
          match jsonParse (jsTrim s) with
          | some v => some v
          | none => secondPassContent rest
      | _ => secondPassContent rest
    else secondPassContent rest

/-- Second pass over the `output` array (lines 54–67). -/
def secondPassOutputs : List Json → Option Json
  | [] => none
  | out :: rest =>
    match secondPassContent (asArray (jsGet out "content")) with
    | some v => some v
    | none => secondPassOutputs rest

/-- `extractStructuredJson(data)` (lines 43–81).  The JS function returns
a JS value whose failure signal is `null`; since `JSON.parse("null")` is
also `null`, the model returns `Json` with `Json.null` standing for both. -/
def extractStructuredJson (data : Json) : Json :=
  let outputs := asArray (jsGet data "output")
  match firstPassOutputs outputs with
  | some v => v
  | none =>
    match secondPassOutputs outputs with
    | some v => v
    | none =>
      match jsGet data "output_text" with
      | some (Json.str s) =>
        if jsTrim s = "" then Json.null
        else
          match jsonParse (jsTrim s) with
          | some v => v
          | none => Json.null
      | _ => Json.null

/-- `pageUrl.startsWith("http")` (line 106), modelled structurally. -/
def strStartsWith (s pre : String) : Bool :=
  pre.data.isPrefixOf s.data

/-- `wikipediaUrlForTitle(title)` (lines 84–110), with the settled fetch
outcome passed explicitly: `none` models a transport error or a body that
is not JSON (the `catch` branch), `some (ok, data)` a parsed response. -/
def wikipediaUrlForTitle (title : String) (resp : Option (Bool × Json)) :
    Option String :=
  if jsTrim title = "" then none
  else
    match resp with
    | none => none
    | some (ok, data) =>
      if !ok then none
      else if jsStrEq (jsGet data "type") "disambiguation" then none
      else
        match jsChain (jsChain (jsGet data "content_urls") "desktop") "page" with
        | some (Json.str u) => if strStartsWith u "http" then some u else none
        | _ => none

/-- `/^Q\d+$/.test(s)` (line 143). -/
def isQid (s : String) : Bool :=
  match s.data with
  | c :: rest => c == 'Q' && !rest.isEmpty && rest.all Char.isDigit
  | [] => false

/-- `wikipediaQidForTitle(title)` (lines 116–147), fetch outcome passed
explicitly as for `wikipediaUrlForTitle`. -/
def wikipediaQidForTitle (title : String) (resp : Option (Bool × Json)) :
    Option String :=
  if jsTrim title = "" then none
  else
    match resp with
    | none => none
    | some (ok, data) =>
      if !ok then none
      else
        match jsChain (jsGet data "query") "pages" with
        | some pages =>
          if pages.truthy && jsTypeofObject pages then
            let firstPage : Option Json :=
              match pages with
              | Json.obj fields =>
                match fields with
                | [] => none
                | (_, v) :: _ => some v
              | Json.arr xs => xs.head?
              | _ => none
            match jsChain (jsChain firstPage "pageprops") "wikibase_item" with
            | some (Json.str q) => if isQid q then some q else none
            | _ => none
          else none
        | none => none

/-- `yearFromWikidataTime(t)` (lines 152–159): match the anchored pattern
`^([+-])(\d+)-` and take the integer value of the digit run.  `parseInt` on a digit
string is exact below 2^53, which the model takes as given; the
`Number.isFinite` guard of line 158 therefore never fires in the model.
`none` as input models `undefined`. -/
def yearFromWikidataTime (t : Option Json) : Option Nat :=
  match t with
  | some (Json.str s) =>
    match s.data with
    | c :: rest =>
      if c == '+' || c == '-' then
        let ds := rest.takeWhile Char.isDigit
        if ds.isEmpty then none
        else
          match rest.dropWhile Char.isDigit with
          | d :: _ => if d == '-' then some (digitsToNat ds) else none
          | [] => none
      else none
    | [] => none
  | _ => none

/-- The fact bundle returned by `wikidataYearsForQid` (lines 193–196):
`birthYear`/`deathYear` are a number or `null` in the source, modelled as
`Option Nat`. -/
structure YearsBundle where
  birthYear : Option Nat
  deathYear : Option Nat

/-- `wikidataYearsForQid(qid)` (lines 166–200), fetch outcome explicit. -/
def wikidataYearsForQid (qid : String) (resp : Option (Bool × Json)) :
    Option YearsBundle :=
  if qid = "" then none
  else
    match resp with
    | none => none
    | some (ok, data) =>
      if !ok then none
      else
        match jsChain (jsGet data "entities") qid with
        | some entity =>
          if entity.truthy then
            let claims := jsOrElse (jsGet entity "claims") (Json.obj [])
            let birth := jsChain (jsChain (jsChain (jsIndex
              (jsGet claims "P569") 0) "mainsnak") "datavalue") "value"
            let death := jsChain (jsChain (jsChain (jsIndex
              (jsGet claims "P570") 0) "mainsnak") "datavalue") "value"
            some { birthYear := yearFromWikidataTime (jsChain birth "time")
                   deathYear := yearFromWikidataTime (jsChain death "time") }
          else none
        | none => none

/-- `cleanTag` (lines 341–347) on a string:
`.toLowerCase().trim().replace(/\s+/g, "_").replace(/[^a-z0-9_-]/g, "")`
followed by stripping leading/trailing underscores. -/
def cleanTag (s : String) : String :=
  String.mk (stripUnderscores (List.filter isTagChar
    (collapseRuns isJsWs (jsTrimList (s.data.map jsLower)))))

/-- `cleanTag` applied to an arbitrary array element: the source first
coerces with `String(t || "")`. -/
def cleanTagJson (t : Json) : String :=
  cleanTag (jsToString (if t.truthy then t else Json.str ""))

/-- The fallback pad tags (line 352). -/
def padList : List String :=
  ["space_settlement", "spaceflight", "reference", "biography"]

/-- The `while` loop of lines 353–356: shift entries off the pad list
while fewer than 2 tags, pushing those that are nonempty and new. -/
def padTags : List String → List String → List String
  | tags, [] => tags
  | tags, p :: ps =>
    if tags.length < 2 then
      if p ≠ "" ∧ p ∉ tags then padTags (tags ++ [p]) ps
      else padTags tags ps
    else tags

/-- `[...new Set(l)]`: deduplication keeping first occurrences. -/
def dedupAux : List String → List String → List String
  | _, [] => []
  | seen, x :: xs =>
    if x ∈ seen then dedupAux seen xs else x :: dedupAux (x :: seen) xs

/-- `[...new Set(l)]` (line 350). -/
def jsSetDedup (l : List String) : List String :=
  dedupAux [] l

/-- Line 349: the cleaned, nonempty entries of the extracted `tags`
property (`[]` when it is not an array). -/
def tagsBase (rawTags : Option Json) : List String :=
  match rawTags with
  | some (Json.arr ts) => (ts.map cleanTagJson).filter (fun s => s ≠ "")
  | _ => []

/-- The full tag-normalization step of lines 349–357, applied to the
extracted `tags` property: clean each entry, drop empties, deduplicate,
truncate to 6, pad to at least 2, truncate to 6 again. -/
def normalizeTags (rawTags : Option Json) : List String :=
  (padTags ((jsSetDedup (tagsBase rawTags)).take 6) padList).take 6

/-- `toImagePlaceholder(title)` (lines 32–40). -/
def toImagePlaceholder (title : String) : String :=
  let slug := stripUnderscores (collapseRuns (fun c => !isLowerAlnum c)
    (((jsTrimList title.data).map jsLower).filter
      (fun c => !(c.toNat == 39 || c.toNat == 0x2019))))
  if slug.isEmpty then "placeholder.jpg" else String.mk slug ++ ".jpg"

/-- The final enriched record returned with status 200 (line 370),
projected onto the fields the handler manipulates.  `birthYear` and
`deathYear` are `Option Json` because the source object may carry them as
any JSON value or omit them (`none`). -/
structure EnrichedRecord where
  type : String
  title : String
  href : String
  image : String
  summary : String
  tags : List String
  birthYear : Option Json
  deathYear : Option Json

/-- Outcome of the enrichment handler after the generator call settles:
an error response or the enriched record. -/
inductive HandlerResult where
  | err (status : Nat) (body : String) : HandlerResult
  | ok (record : EnrichedRecord) : HandlerResult

/-- The fixed "not established" sentinel summary (lines 337–338). -/
def notEstablishedSummary : String :=
  "Recognition among scientists: not established from provided context. Contribution to space settlement: not established from provided context."

/-- Body of the extraction-failure response (line 322). -/
def failBody (genRaw : String) : String :=
  "Could not extract structured JSON from OpenAI response.\nRAW:\n" ++ genRaw

/-- Body of the catch-all error response (line 372) when `JSON.parse` of
the generator body throws; the embedded engine-specific message text is
modelled by a fixed string, only the prefix is source text. -/
def functionErrorBody : String :=
  "Function error: Unexpected token in JSON"

/-- Lines 327–370: build the final record from the extracted generator
payload, the resolved Wikipedia URL and the resolved Wikidata years. -/
def buildRecord (title ty : String) (wikiUrl : Option String)
    (years : Option YearsBundle) (extracted : Json) : EnrichedRecord :=
  let summary0 := jsTrim (jsToString (jsOrElse (jsGet extracted "summary") (Json.str "")))
  { type := jsToString (jsOrElse (jsGet extracted "type")
      (Json.str (if ty = "" then "topic" else ty)))
    title := title
    href :=
      match wikiUrl with
      | some u => if u = "" then "kein Wiki" else u
      | none => "kein Wiki"
    image := jsToString (jsOrElse (jsGet extracted "image")
      (Json.str (toImagePlaceholder title)))
    summary := if utf16Len summary0 < 20 then notEstablishedSummary else summary0
    tags := normalizeTags (jsGet extracted "tags")
    birthYear :=
      if ty = "person" then
        match years with
        | some yb =>
          match yb.birthYear with
          | some n => some (Json.num (n : Int))
          | none => jsGet extracted "birthYear"
        | none => jsGet extracted "birthYear"
      else jsGet extracted "birthYear"
    deathYear :=
      if ty = "person" then
        match years with
        | some yb =>
          some (match yb.deathYear with
            | some n => Json.num (n : Int)
            | none => Json.null)
        | none => jsGet extracted "deathYear"
      else jsGet extracted "deathYear" }

/-- The enrichment handler (lines 295–373) from the point where the
generator call has settled, for a valid POST request with trimmed
nonempty `title` and trimmed `type`.  `wikiUrl` and `years` are the
settled results of the two resolver chains (lines 297–305, 325);
`genOk`, `genStatus`, `genRaw` are the generator response's `res.ok`,
`res.status` and raw text body (lines 316–317). -/
def handlerCore (title ty : String) (wikiUrl : Option String)
    (years : Option YearsBundle) (genOk : Bool) (genStatus : Nat)
    (genRaw : String) : HandlerResult :=
  if !genOk then
    HandlerResult.err 500 ("OpenAI error " ++ toString genStatus ++ ": " ++ genRaw)
  else
    match jsonParse genRaw with
    | none => HandlerResult.err 500 functionErrorBody
    | some data =>
      let extracted := extractStructuredJson data
      if !extracted.truthy then HandlerResult.err 500 (failBody genRaw)
      else HandlerResult.ok (buildRecord title ty wikiUrl years extracted)

/-- `items.js` lines 40: the token sent by the caller,
`event.headers["x-admin-token"] || event.headers["X-Admin-Token"]`
(the capitalised variant is consulted when the lowercase one is absent
or the empty string). -/
def headerToken (hLower hUpper : Option String) : Option String :=
  match hLower with
  | some s => if s = "" then hUpper else some s
  | none => hUpper

/-- `authOk(event)` (`items.js` lines 37–42).  `adminToken` is the
`ADMIN_TOKEN` environment variable (`none` = unset); note that
`if (!required) return true` also fires when the variable is set to the
empty string. -/
def authOk (adminToken : Option String) (hLower hUpper : Option String) : Bool :=
  match adminToken with
  | none => true
  | some required =>
    if required = "" then true
    else
      match headerToken hLower hUpper with
      | some t => t == required
      | none => false

/-- Outcome of the shared-secret gate at the top of the POST and DELETE
branches of the `items.js` handler. -/
inductive ItemsGateResult where
  | unauthorized : ItemsGateResult
  | proceeds : ItemsGateResult

/-- The auth gate of the `items.js` handler (lines 91–92 and 128–129):
POST and DELETE return 401 Unauthorized when `authOk` fails; other
methods are not gated. -/
def itemsGate (method : String) (adminToken : Option String)
    (hLower hUpper : Option String) : ItemsGateResult :=
  if method = "POST" ∨ method = "DELETE" then
    if authOk adminToken hLower hUpper then ItemsGateResult.proceeds
    else ItemsGateResult.unauthorized
  else ItemsGateResult.proceeds

/-- Envelope carrying the payload as a structured `output_json` content
block (shape (a) of the Response Extractor). -/
def envJson (j : Json) : Json :=
  Json.obj [("output", Json.arr [Json.obj [("content", Json.arr
    [Json.obj [("type", Json.str "output_json"), ("json", j)]])]])]

/-- Envelope carrying the payload as the string of a text content block
(shape (b)). -/
def envText (s : String) : Json :=
  Json.obj [("output", Json.arr [Json.obj [("content", Json.arr
    [Json.obj [("type", Json.str "output_text"), ("text", Json.str s)]])]])]

/-- Envelope carrying the payload in the top-level `output_text` field
(shape (c)). -/
def envOutputText (s : String) : Json :=
  Json.obj [("output_text", Json.str s)]

/-- Envelope whose single content array carries both a structured block
and a text block, to exhibit the priority order. -/
def envBoth (j : Json) (s : String) : Json :=
  Json.obj [("output", Json.arr [Json.obj [("content", Json.arr
    [Json.obj [("type", Json.str "output_json"), ("json", j)],
     Json.obj [("type", Json.str "output_text"), ("text", Json.str s)]])]])]

/-- One content block yields JSON for the extractor: either a truthy
object-typed `json` field (first pass) or a text block whose trimmed
string parses (second pass). -/
def contentYields (c : Json) : Bool :=
  c.truthy &&
  ((match jsGet c "json" with
    | some v => v.truthy && jsTypeofObject v
    | none => false) ||
   (isTextType c &&
    match jsGet c "text" with
    | some (Json.str s) => (jsonParse (jsTrim s)).isSome
    | _ => false))

/-- Some tolerated envelope shape of `data` yields valid JSON. -/
def anyShapeYieldsJson (data : Json) : Bool :=
  (asArray (jsGet data "output")).any
    (fun out => (asArray (jsGet out "content")).any contentYields) ||
  (match jsGet data "output_text" with
   | some (Json.str s) => (jsonParse (jsTrim s)).isSome
   | _ => false)

/-- The payload extracted from a raw generator body: parse, then extract. -/
def extractedOf (raw : String) : Json :=
  match jsonParse raw with
  | some data => extractStructuredJson data
  | none => Json.null

/-- Tags of a handler result (empty on the error branch). -/
def resultTags : HandlerResult → List String
  | HandlerResult.ok r => r.tags
  | HandlerResult.err _ _ => []

/-- Summary of a handler result (empty on the error branch). -/
def resultSummary : HandlerResult → String
  | HandlerResult.ok r => r.summary
  | HandlerResult.err _ _ => ""

/-- `birthYear` of a handler result. -/
def resultBirthYear : HandlerResult → Option Json
  | HandlerResult.ok r => r.birthYear
  | HandlerResult.err _ _ => none

/-- `deathYear` of a handler result. -/
def resultDeathYear : HandlerResult → Option Json
  | HandlerResult.ok r => r.deathYear
  | HandlerResult.err _ _ => none

/-- A generator body whose payload carries stale years 1900/2000 together
with schema-valid summary and tags, for the facts-win scenario. -/
def rawStaleYears : String :=
  "\x7b\"output\": [\x7b\"content\": [\x7b\"type\": \"output_json\", \"json\": \x7b\"birthYear\": 1900, \"deathYear\": 2000, \"summary\": \"A stale generator summary that is long enough.\", \"tags\": [\"a\", \"b\"]\x7d\x7d]\x7d]\x7d"

/-- A generator body whose payload carries tags that begin with a hyphen
(the schema pattern is not re-checked by the normalizer). -/
def rawHyphenTags : String :=
  "\x7b\"output\": [\x7b\"content\": [\x7b\"type\": \"output_json\", \"json\": \x7b\"summary\": \"A generator summary that is long enough here.\", \"tags\": [\"-a\", \"-b\"]\x7d\x7d]\x7d]\x7d"

/-- A generator body whose payload carries a 5-character summary. -/
def rawShortSummary : String :=
  "\x7b\"output\": [\x7b\"content\": [\x7b\"type\": \"output_json\", \"json\": \x7b\"summary\": \"abcde\", \"tags\": [\"alpha\", \"beta\"]\x7d\x7d]\x7d]\x7d"

/-- First character is a lowercase letter or digit (the slug-start
condition asserted by the claim about tags). -/
def startsWithAlnum (s : String) : Bool :=
  match s.data with
  | c :: _ => isLowerAlnum c
  | [] => false

/-- A Wikidata `Special:EntityData` payload for `qid` whose P569/P570
claims carry the given `time` values, as read by `wikidataYearsForQid`. -/
def mkEntityData (qid : String) (birthTime deathTime : Json) : Json :=
  Json.obj [("entities", Json.obj [(qid, Json.obj [("claims", Json.obj
    [("P569", Json.arr [Json.obj [("mainsnak", Json.obj [("datavalue",
       Json.obj [("value", Json.obj [("time", birthTime)])])])]]),
     ("P570", Json.arr [Json.obj [("mainsnak", Json.obj [("datavalue",
       Json.obj [("value", Json.obj [("time", deathTime)])])])]])])])])]

/-- The generator's trimmed summary for a raw body (line 335). -/
def summarySource (raw : String) : String :=
  jsTrim (jsToString (jsOrElse (jsGet (extractedOf raw) "summary") (Json.str "")))

/-- The cleaned, nonempty generator tags for a raw body (line 349). -/
def cleanedTags (raw : String) : List String :=
  tagsBase (jsGet (extractedOf raw) "tags")

/-- A string is in cleaned-tag shape: only `[a-z0-9_-]` characters and no
leading or trailing underscore. -/
def isCleanTagStr (s : String) : Prop :=
  (∀ c ∈ s.data, isTagChar c = true) ∧
  s.data.head? ≠ some '_' ∧ s.data.getLast? ≠ some '_'

/-! ## Lemmas: the tag cleaner -/

theorem isTagChar_not_ws {c : Char} (h : isTagChar c = true) : isJsWs c = false := by
  simp only [isTagChar, Bool.or_eq_true, Bool.and_eq_true, decide_eq_true_eq,
    beq_iff_eq] at h
  simp only [isJsWs, Bool.or_eq_false_iff, Bool.and_eq_false_iff,
    beq_eq_false_iff_ne, ne_eq, decide_eq_false_iff_not]
  omega

theorem isTagChar_lower {c : Char} (h : isTagChar c = true) : jsLower c = c := by
  simp only [isTagChar, Bool.or_eq_true, Bool.and_eq_true, decide_eq_true_eq,
    beq_iff_eq] at h
  rw [jsLower, if_neg]
  omega

theorem dropWhile_eq_self_of_all {p : Char → Bool} {l : List Char}
    (h : ∀ c ∈ l, p c = false) : l.dropWhile p = l := by
  cases l with
  | nil => rfl
  | cons c cs =>
    rw [List.dropWhile_cons, if_neg]
    simp [h c (List.mem_cons_self c cs)]

theorem head?_dropWhile {p : Char → Bool} {l : List Char} {c : Char}
    (h : (l.dropWhile p).head? = some c) : p c = false := by
  induction l with
  | nil => simp [List.dropWhile] at h
  | cons a as ih =>
    rw [List.dropWhile_cons] at h
    by_cases hp : p a = true
    · rw [if_pos hp] at h; exact ih h
    · rw [if_neg hp] at h
      simp only [List.head?_cons, Option.some.injEq] at h
      subst h
      exact Bool.eq_false_iff.mpr hp

theorem mem_dropTailWhile {p : Char → Bool} {l : List Char} {c : Char}
    (h : c ∈ dropTailWhile p l) : c ∈ l := by
  unfold dropTailWhile at h
  rw [List.mem_reverse] at h
  have := (List.dropWhile_sublist p).subset h
  rwa [List.mem_reverse] at this

theorem getLast?_dropTailWhile {p : Char → Bool} {l : List Char} {c : Char}
    (h : (dropTailWhile p l).getLast? = some c) : p c = false := by
  unfold dropTailWhile at h
  rw [List.getLast?_reverse] at h
  exact head?_dropWhile h

theorem head?_dropTailWhile {p : Char → Bool} {l : List Char} {c : Char}
    (h : (dropTailWhile p l).head? = some c) : l.head? = some c := by
  obtain ⟨t, ht⟩ := @List.dropWhile_suffix Char l.reverse p
  have hl : l = (l.reverse.dropWhile p).reverse ++ t.reverse := by
    rw [← List.reverse_append, ht, List.reverse_reverse]
  unfold dropTailWhile at h
  rw [hl]
  cases hd : (l.reverse.dropWhile p).reverse with
  | nil => rw [hd] at h; simp at h
  | cons a r =>
    rw [hd] at h
    simp only [List.head?_cons, Option.some.injEq] at h
    subst h
    simp

theorem jsTrimList_eq_self {l : List Char} (h : ∀ c ∈ l, isJsWs c = false) :
    jsTrimList l = l := by
  unfold jsTrimList dropTailWhile
  rw [dropWhile_eq_self_of_all h,
    dropWhile_eq_self_of_all (fun c hc => h c (List.mem_reverse.mp hc)),
    List.reverse_reverse]

theorem collapseAux_eq_self {p : Char → Bool} {l : List Char}
    (h : ∀ c ∈ l, p c = false) : ∀ b, collapseAux p b l = l := by
  induction l with
  | nil => intro b; rfl
  | cons c cs ih =>
    intro b
    rw [collapseAux, if_neg (by simp [h c (List.mem_cons_self c cs)])]
    rw [ih (fun d hd => h d (List.mem_cons_of_mem c hd)) false]

theorem collapseRuns_eq_self {p : Char → Bool} {l : List Char}
    (h : ∀ c ∈ l, p c = false) : collapseRuns p l = l :=
  collapseAux_eq_self h false

theorem stripUnderscores_eq_self {l : List Char}
    (hhd : l.head? ≠ some '_') (hlast : l.getLast? ≠ some '_') :
    stripUnderscores l = l := by
  unfold stripUnderscores dropTailWhile
  have h1 : l.dropWhile (fun c => c == '_') = l := by
    cases l with
    | nil => rfl
    | cons c cs =>
      rw [List.dropWhile_cons, if_neg]
      simp only [List.head?_cons, ne_eq, Option.some.injEq] at hhd
      simp [hhd]
  rw [h1]
  have h2 : l.reverse.dropWhile (fun c => c == '_') = l.reverse := by
    cases hr : l.reverse with
    | nil => rfl
    | cons c cs =>
      rw [List.dropWhile_cons, if_neg]
      have : l.getLast? = some c := by
        rw [← List.head?_reverse, hr, List.head?_cons]
      simp only [ne_eq] at hlast
      have hc : c ≠ '_' := fun he => hlast (he ▸ this)
      simp [hc]
  rw [h2, List.reverse_reverse]

theorem stripUnderscores_clean {l : List Char}
    (h : ∀ c ∈ l, isTagChar c = true) :
    (∀ c ∈ stripUnderscores l, isTagChar c = true) ∧
    (stripUnderscores l).head? ≠ some '_' ∧
    (stripUnderscores l).getLast? ≠ some '_' := by
  refine ⟨?_, ?_, ?_⟩
  · intro c hc
    have := mem_dropTailWhile hc
    exact h c ((List.dropWhile_sublist _).subset this)
  · intro heq
    have h2 := head?_dropTailWhile heq
    have h3 := head?_dropWhile h2
    simp at h3
  · intro heq
    have h2 := getLast?_dropTailWhile heq
    simp at h2

theorem cleanTag_clean (s : String) : isCleanTagStr (cleanTag s) := by
  unfold cleanTag isCleanTagStr
  exact stripUnderscores_clean (fun c hc => (List.mem_filter.mp hc).2)

theorem cleanTag_fixed {s : String} (h : isCleanTagStr s) : cleanTag s = s := by
  obtain ⟨hall, hhd, hlast⟩ := h
  unfold cleanTag
  have h1 : s.data.map jsLower = s.data := by
    rw [List.map_congr_left (fun c hc => isTagChar_lower (hall c hc)), List.map_id']
  rw [h1, jsTrimList_eq_self (fun c hc => isTagChar_not_ws (hall c hc)),
    collapseRuns_eq_self (fun c hc => isTagChar_not_ws (hall c hc)),
    List.filter_eq_self.mpr hall, stripUnderscores_eq_self hhd hlast]

theorem cleanTag_idem (s : String) : cleanTag (cleanTag s) = cleanTag s :=
  cleanTag_fixed (cleanTag_clean s)

/-! ## Lemmas: deduplication and padding -/

theorem dedupAux_not_mem_seen {l : List String} :
    ∀ seen, (dedupAux seen l).Nodup ∧ ∀ x ∈ dedupAux seen l, x ∉ seen := by
  induction l with
  | nil => intro seen; simp [dedupAux]
  | cons a as ih =>
    intro seen
    rw [dedupAux]
    by_cases ha : a ∈ seen
    · rw [if_pos ha]; exact ih seen
    · rw [if_neg ha]
      obtain ⟨hnd, hmem⟩ := ih (a :: seen)
      refine ⟨List.nodup_cons.mpr ⟨?_, hnd⟩, ?_⟩
      · intro hmem2
        exact (hmem a hmem2) (List.mem_cons_self a seen)
      · intro x hx
        rcases List.mem_cons.mp hx with h | h
        · subst h; exact ha
        · intro hxs
          exact (hmem x h) (List.mem_cons_of_mem a hxs)

theorem jsSetDedup_nodup (l : List String) : (jsSetDedup l).Nodup :=
  (dedupAux_not_mem_seen []).1

theorem dedupAux_subset {l : List String} {x : String} :
    ∀ seen, x ∈ dedupAux seen l → x ∈ l := by
  induction l with
  | nil => intro seen h; simp [dedupAux] at h
  | cons a as ih =>
    intro seen h
    rw [dedupAux] at h
    by_cases ha : a ∈ seen
    · rw [if_pos ha] at h
      exact List.mem_cons_of_mem a (ih seen h)
    · rw [if_neg ha] at h
      rcases List.mem_cons.mp h with h' | h'
      · subst h'; exact List.mem_cons_self x as
      · exact List.mem_cons_of_mem a (ih (a :: seen) h')

theorem jsSetDedup_subset {l : List String} {x : String}
    (h : x ∈ jsSetDedup l) : x ∈ l :=
  dedupAux_subset [] h

theorem dedupAux_eq_self {l : List String} (hnd : l.Nodup) :
    ∀ seen, (∀ x ∈ l, x ∉ seen) → dedupAux seen l = l := by
  induction l with
  | nil => intro seen _; rfl
  | cons a as ih =>
    intro seen hdisj
    rw [dedupAux, if_neg (hdisj a (List.mem_cons_self a as))]
    obtain ⟨hna, hnd'⟩ := List.nodup_cons.mp hnd
    rw [ih hnd' (a :: seen) ?_]
    intro x hx
    intro hmem
    rcases List.mem_cons.mp hmem with h' | h'
    · subst h'; exact hna hx
    · exact (hdisj x (List.mem_cons_of_mem a hx)) h'

theorem jsSetDedup_eq_self {l : List String} (hnd : l.Nodup) :
    jsSetDedup l = l :=
  dedupAux_eq_self hnd [] (by simp)

theorem padTags_eq_of_two {tags : List String} (h : 2 ≤ tags.length) :
    ∀ ps, padTags tags ps = tags := by
  intro ps
  cases ps with
  | nil => rfl
  | cons p ps' => rw [padTags, if_neg (by omega)]

theorem padTags_mem {x : String} :
    ∀ ps tags, x ∈ padTags tags ps → x ∈ tags ∨ x ∈ ps := by
  intro ps
  induction ps with
  | nil => intro tags h; rw [padTags] at h; exact Or.inl h
  | cons p ps' ih =>
    intro tags h
    rw [padTags] at h
    by_cases h2 : tags.length < 2
    · rw [if_pos h2] at h
      by_cases hc : p ≠ "" ∧ p ∉ tags
      · rw [if_pos hc] at h
        rcases ih (tags ++ [p]) h with hm | hm
        · rcases List.mem_append.mp hm with hm' | hm'
          · exact Or.inl hm'
          · right
            simp only [List.mem_singleton] at hm'
            rw [hm']
            exact List.mem_cons_self _ _
        · exact Or.inr (List.mem_cons_of_mem p hm)
      · rw [if_neg hc] at h
        rcases ih tags h with hm | hm
        · exact Or.inl hm
        · exact Or.inr (List.mem_cons_of_mem p hm)
    · rw [if_neg h2] at h
      exact Or.inl h

theorem padTags_nodup {tags : List String} (hnd : tags.Nodup) :
    ∀ ps, (padTags tags ps).Nodup := by
  intro ps
  induction ps generalizing tags with
  | nil => exact hnd
  | cons p ps' ih =>
    rw [padTags]
    by_cases h2 : tags.length < 2
    · rw [if_pos h2]
      by_cases hc : p ≠ "" ∧ p ∉ tags
      · rw [if_pos hc]
        refine ih ?_
        simp [List.nodup_append, hnd, hc.2]
      · rw [if_neg hc]; exact ih hnd
    · rw [if_neg h2]; exact hnd

theorem padTags_length_ge {tags : List String} :
    ∀ ps, tags.length ≤ (padTags tags ps).length := by
  intro ps
  induction ps generalizing tags with
  | nil => simp [padTags]
  | cons p ps' ih =>
    rw [padTags]
    by_cases h2 : tags.length < 2
    · rw [if_pos h2]
      by_cases hc : p ≠ "" ∧ p ∉ tags
      · rw [if_pos hc]
        have := @ih (tags ++ [p])
        simp only [List.length_append, List.length_singleton] at this
        omega
      · rw [if_neg hc]; exact ih
    · rw [if_neg h2]

theorem padTags_padList_two {tags : List String} (h : tags.length < 2) :
    2 ≤ (padTags tags padList).length := by
  match tags, h with
  | [], _ => decide
  | [t], _ =>
    by_cases h1 : t = "space_settlement"
    · subst h1; decide
    · rw [show padList = "space_settlement" ::
          ["spaceflight", "reference", "biography"] from rfl]
      rw [padTags, if_pos (by simp),
        if_pos ⟨by decide, by
          simp only [List.mem_singleton]
          exact fun he => h1 he.symm⟩]
      rw [padTags_eq_of_two (by simp)]
      simp

/-! ## Lemmas: tag normalization -/

theorem mem_tagsBase {rawTags : Option Json} {t : String}
    (h : t ∈ tagsBase rawTags) : (∃ j, t = cleanTagJson j) ∧ t ≠ "" := by
  unfold tagsBase at h
  split at h
  · rw [List.mem_filter] at h
    obtain ⟨hmap, hne⟩ := h
    obtain ⟨j, _, rfl⟩ := List.mem_map.mp hmap
    refine ⟨⟨j, rfl⟩, ?_⟩
    simpa using hne
  · simp at h

theorem mem_normalizeTags {rawTags : Option Json} {t : String}
    (h : t ∈ normalizeTags rawTags) :
    isCleanTagStr t ∧ t ≠ "" ∧ cleanTag t = t ∧
    (t ∈ tagsBase rawTags ∨ t ∈ padList) := by
  unfold normalizeTags at h
  have h2 : t ∈ padTags ((jsSetDedup (tagsBase rawTags)).take 6) padList :=
    List.take_subset _ _ h
  rcases padTags_mem _ _ h2 with hm | hm
  · have h3 : t ∈ tagsBase rawTags :=
      jsSetDedup_subset (List.take_subset _ _ hm)
    obtain ⟨⟨j, rfl⟩, hne⟩ := mem_tagsBase h3
    have hclean : isCleanTagStr (cleanTagJson j) := cleanTag_clean _
    exact ⟨hclean, hne, cleanTag_fixed hclean, Or.inl h3⟩
  · have hct : isCleanTagStr t ∧ t ≠ "" := by
      unfold isCleanTagStr
      fin_cases hm <;> exact ⟨by decide, by decide⟩
    exact ⟨hct.1, hct.2, cleanTag_fixed hct.1, Or.inr hm⟩

theorem normalizeTags_nodup (rawTags : Option Json) :
    (normalizeTags rawTags).Nodup := by
  unfold normalizeTags
  exact (List.take_sublist 6 _).nodup
    (padTags_nodup ((List.take_sublist 6 _).nodup (jsSetDedup_nodup _)) padList)

theorem normalizeTags_length_le (rawTags : Option Json) :
    (normalizeTags rawTags).length ≤ 6 := by
  unfold normalizeTags
  exact List.length_take_le 6 _

theorem normalizeTags_length_ge (rawTags : Option Json) :
    2 ≤ (normalizeTags rawTags).length := by
  unfold normalizeTags
  by_cases h : ((jsSetDedup (tagsBase rawTags)).take 6).length < 2
  · have h1 := padTags_padList_two h
    rw [List.length_take]
    omega
  · push_neg at h
    rw [padTags_eq_of_two h,
      List.take_of_length_le (List.length_take_le 6 _)]
    exact h

theorem normalizeTags_idem {rawTags : Option Json}
    (h : 2 ≤ (normalizeTags rawTags).length) :
    normalizeTags (some (Json.arr ((normalizeTags rawTags).map Json.str))) =
      normalizeTags rawTags := by
  have hbase : tagsBase (some (Json.arr ((normalizeTags rawTags).map Json.str))) =
      normalizeTags rawTags := by
    simp only [tagsBase]
    rw [List.map_map]
    have hmap : (normalizeTags rawTags).map (cleanTagJson ∘ Json.str) =
        normalizeTags rawTags := by
      rw [List.map_congr_left ?_, List.map_id']
      intro t ht
      obtain ⟨_, hne, hfix, _⟩ := mem_normalizeTags ht
      show cleanTagJson (Json.str t) = t
      unfold cleanTagJson
      rw [if_pos (by simp [Json.truthy, hne])]
      exact hfix
    rw [hmap]
    rw [List.filter_eq_self.mpr ?_]
    intro t ht
    simp [(mem_normalizeTags ht).2.1]
  conv_lhs => rw [normalizeTags]
  rw [hbase]
  have hnd := normalizeTags_nodup rawTags
  have hle := normalizeTags_length_le rawTags
  rw [jsSetDedup_eq_self hnd, List.take_of_length_le hle,
    padTags_eq_of_two h, List.take_of_length_le hle]

/-! ## Lemmas: the response extractor -/

example (fs : List (String × Json)) :
    extractStructuredJson (envJson (Json.obj fs)) = Json.obj fs := rfl

example (fs : List (String × Json)) (s : String) :
    extractStructuredJson (envBoth (Json.obj fs) s) = Json.obj fs := rfl

theorem jsonParse_nil : jsonParse "" = none := rfl

theorem extract_envText {s : String} {j : Json}
    (h : jsonParse (jsTrim s) = some j) :
    extractStructuredJson (envText s) = j := by
  have hne : jsTrim s ≠ "" := by
    intro he
    rw [he, jsonParse_nil] at h
    exact Option.noConfusion h
  have hc : secondPassContent [Json.obj [("type", Json.str "output_text"),
      ("text", Json.str s)]] = some j := by
    show (if jsTrim s = "" then secondPassContent [] else
      match jsonParse (jsTrim s) with
      | some v => some v
      | none => secondPassContent []) = some j
    rw [if_neg hne, h]
  show (match (match secondPassContent [Json.obj [("type", Json.str "output_text"),
      ("text", Json.str s)]] with
    | some v => some v
    | none => none) with
    | some v => v
    | none => Json.null) = j
  rw [hc]

theorem extract_envOutputText {s : String} {j : Json}
    (h : jsonParse (jsTrim s) = some j) :
    extractStructuredJson (envOutputText s) = j := by
  have hne : jsTrim s ≠ "" := by
    intro he
    rw [he, jsonParse_nil] at h
    exact Option.noConfusion h
  show (if jsTrim s = "" then Json.null else
    match jsonParse (jsTrim s) with
    | some v => v
    | none => Json.null) = j
  rw [if_neg hne, h]

theorem firstPassContent_none {cs : List Json}
    (h : ∀ c ∈ cs, contentYields c = false) : firstPassContent cs = none := by
  induction cs with
  | nil => rfl
  | cons c rest ih =>
    have hc := h c (List.mem_cons_self c rest)
    have hrest := ih (fun d hd => h d (List.mem_cons_of_mem c hd))
    rw [firstPassContent]
    cases hj : jsGet c "json" with
    | none => exact hrest
    | some v =>
      unfold contentYields at hc
      rw [hj] at hc
      cases htr : c.truthy <;> cases hv : v.truthy <;>
        cases hty : jsTypeofObject v <;> simp_all

theorem secondPassContent_none {cs : List Json}
    (h : ∀ c ∈ cs, contentYields c = false) : secondPassContent cs = none := by
  induction cs with
  | nil => rfl
  | cons c rest ih =>
    have hc := h c (List.mem_cons_self c rest)
    have hrest := ih (fun d hd => h d (List.mem_cons_of_mem c hd))
    rw [secondPassContent]
    by_cases hct : (c.truthy && isTextType c) = true
    · rw [if_pos hct]
      cases htx : jsGet c "text" with
      | none => exact hrest
      | some v =>
        cases v with
        | str s =>
          show (if jsTrim s = "" then secondPassContent rest else
            match jsonParse (jsTrim s) with
            | some v => some v
            | none => secondPassContent rest) = none
          by_cases hts : jsTrim s = ""
          · rw [if_pos hts]; exact hrest
          · rw [if_neg hts]
            cases hp : jsonParse (jsTrim s) with
            | none => exact hrest
            | some v2 =>
              exfalso
              unfold contentYields at hc
              rw [htx] at hc
              obtain ⟨htr, hit⟩ := (Bool.and_eq_true _ _).mp hct
              simp [htr, hit, hp] at hc
        | null => exact hrest
        | bool b => exact hrest
        | num n => exact hrest
        | arr xs => exact hrest
        | obj fs => exact hrest
    · rw [if_neg hct]; exact hrest

theorem firstPassOutputs_none {outs : List Json}
    (h : ∀ out ∈ outs, ∀ c ∈ asArray (jsGet out "content"),
      contentYields c = false) : firstPassOutputs outs = none := by
  induction outs with
  | nil => rfl
  | cons out rest ih =>
    rw [firstPassOutputs,
      firstPassContent_none (h out (List.mem_cons_self out rest))]
    exact ih (fun o ho => h o (List.mem_cons_of_mem out ho))

theorem secondPassOutputs_none {outs : List Json}
    (h : ∀ out ∈ outs, ∀ c ∈ asArray (jsGet out "content"),
      contentYields c = false) : secondPassOutputs outs = none := by
  induction outs with
  | nil => rfl
  | cons out rest ih =>
    rw [secondPassOutputs,
      secondPassContent_none (h out (List.mem_cons_self out rest))]
    exact ih (fun o ho => h o (List.mem_cons_of_mem out ho))

theorem extract_null_of_noShape {data : Json}
    (h : anyShapeYieldsJson data = false) :
    extractStructuredJson data = Json.null := by
  unfold anyShapeYieldsJson at h
  rw [Bool.or_eq_false_iff] at h
  obtain ⟨h1, h2⟩ := h
  simp only [List.any_eq_false, Bool.not_eq_true] at h1
  have hall : ∀ out ∈ asArray (jsGet data "output"),
      ∀ c ∈ asArray (jsGet out "content"), contentYields c = false := h1
  simp only [extractStructuredJson]
  rw [firstPassOutputs_none hall, secondPassOutputs_none hall]
  cases ho : jsGet data "output_text" with
  | none => rfl
  | some v =>
    cases v with
    | str s =>
      rw [ho] at h2
      show (if jsTrim s = "" then Json.null else
        match jsonParse (jsTrim s) with
        | some v => v
        | none => Json.null) = Json.null
      by_cases hts : jsTrim s = ""
      · rw [if_pos hts]
      · rw [if_neg hts]
        cases hp : jsonParse (jsTrim s) with
        | none => rfl
        | some v2 => simp [hp] at h2
    | null => rfl
    | bool b => rfl
    | num n => rfl
    | arr xs => rfl
    | obj fs => rfl

/-! ## Lemmas: the enrichment handler -/

theorem handlerCore_ok_inv {title ty : String} {wikiUrl : Option String}
    {years : Option YearsBundle} {genOk : Bool} {genStatus : Nat}
    {genRaw : String} {rec : EnrichedRecord}
    (h : handlerCore title ty wikiUrl years genOk genStatus genRaw =
      HandlerResult.ok rec) :
    genOk = true ∧ ∃ data, jsonParse genRaw = some data ∧
      (extractStructuredJson data).truthy = true ∧
      rec = buildRecord title ty wikiUrl years (extractStructuredJson data) := by
  simp only [handlerCore] at h
  by_cases hg : genOk = true
  · refine ⟨hg, ?_⟩
    rw [hg] at h
    simp only [Bool.not_true, Bool.false_eq_true, if_false] at h
    cases hp : jsonParse genRaw with
    | none => rw [hp] at h; simp at h
    | some data =>
      rw [hp] at h
      replace h : (if (!(extractStructuredJson data).truthy) = true then
          HandlerResult.err 500 (failBody genRaw)
        else HandlerResult.ok
          (buildRecord title ty wikiUrl years (extractStructuredJson data))) =
          HandlerResult.ok rec := h
      by_cases he : (extractStructuredJson data).truthy = true
      · refine ⟨data, rfl, he, ?_⟩
        rw [he] at h
        simp only [Bool.not_true, Bool.false_eq_true, if_false,
          HandlerResult.ok.injEq] at h
        exact h.symm
      · rw [Bool.not_eq_true] at he
        rw [he] at h
        simp at h
  · rw [Bool.not_eq_true] at hg
    rw [hg] at h
    simp at h

theorem handlerCore_ok_of_truthy {title ty : String} {wikiUrl : Option String}
    {years : Option YearsBundle} {genStatus : Nat} {genRaw : String}
    {data : Json} (hp : jsonParse genRaw = some data)
    (he : (extractStructuredJson data).truthy = true) :
    handlerCore title ty wikiUrl years true genStatus genRaw =
      HandlerResult.ok
        (buildRecord title ty wikiUrl years (extractStructuredJson data)) := by
  simp only [handlerCore, Bool.not_true, Bool.false_eq_true, if_false]
  rw [hp]
  show (if (!(extractStructuredJson data).truthy) = true then
      HandlerResult.err 500 (failBody genRaw)
    else HandlerResult.ok
      (buildRecord title ty wikiUrl years (extractStructuredJson data))) =
    HandlerResult.ok (buildRecord title ty wikiUrl years (extractStructuredJson data))
  rw [he]
  simp

/-! ## Lemmas and claims: parsing auxiliaries, C6, C9, C10 -/

theorem takeWhile_append_of_all {p : Char → Bool} {ds rest : List Char}
    {b : Char} (h : ∀ d ∈ ds, p d = true) (hb : p b = false) :
    (ds ++ b :: rest).takeWhile p = ds := by
  induction ds with
  | nil => simp [List.takeWhile_cons, hb]
  | cons d ds' ih =>
    rw [List.cons_append, List.takeWhile_cons,
      if_pos (h d (List.mem_cons_self d ds')),
      ih (fun e he => h e (List.mem_cons_of_mem d he))]

theorem dropWhile_append_of_all {p : Char → Bool} {ds rest : List Char}
    {b : Char} (h : ∀ d ∈ ds, p d = true) (hb : p b = false) :
    (ds ++ b :: rest).dropWhile p = b :: rest := by
  induction ds with
  | nil => simp [List.dropWhile_cons, hb]
  | cons d ds' ih =>
    rw [List.cons_append, List.dropWhile_cons,
      if_pos (h d (List.mem_cons_self d ds')),
      ih (fun e he => h e (List.mem_cons_of_mem d he))]

/-- C9: tag normalization is idempotent: `cleanTag` is idempotent on every
string, and the full normalization step applied to an already-normalized
tag set of at least 2 tags returns it unchanged. -/
theorem c9_normalizer_idem :
    (∀ s : String, cleanTag (cleanTag s) = cleanTag s) ∧
    (∀ rawTags : Option Json, 2 ≤ (normalizeTags rawTags).length →
      normalizeTags (some (Json.arr ((normalizeTags rawTags).map Json.str))) =
        normalizeTags rawTags) :=
  ⟨cleanTag_idem, fun _ h => normalizeTags_idem h⟩

/-- C9 witness: the idempotence theorem applied at concrete inputs. -/
theorem c9_normalizer_idem_witness :
    cleanTag (cleanTag " Space  Flight! ") = cleanTag " Space  Flight! " ∧
    normalizeTags (some (Json.arr ((normalizeTags (some (Json.arr
      [Json.str "alpha", Json.str "beta"]))).map Json.str))) =
      normalizeTags (some (Json.arr [Json.str "alpha", Json.str "beta"])) :=
  ⟨c9_normalizer_idem.1 " Space  Flight! ",
   c9_normalizer_idem.2 (some (Json.arr [Json.str "alpha", Json.str "beta"]))
     (by decide)⟩

/-- C6 counterexample: a text content block whose string is `"null"` is a
tolerated shape yielding valid JSON (`anyShapeYieldsJson` is `true`), yet
the extractor returns `Json.null`, the failure signal — so the failure
signal is not returned *exactly* when no shape yields valid JSON. -/
theorem c6_counterexample :
    extractStructuredJson (envText "null") = Json.null ∧
    anyShapeYieldsJson (envText "null") = true :=
  ⟨rfl, rfl⟩

/-- C6 (amended): the extractor tries the shapes in fixed priority order —
structured `json` block, then text block, then top-level `output_text` —
returning the payload of the first shape that yields a JSON value; if no
shape yields valid JSON it returns the failure signal `null` (and a text
payload of JSON `null` is indistinguishable from that failure); three
differently-shaped envelopes carrying the same JSON object payload yield
the same extracted object, and a structured block wins over a text block. -/
theorem c6_extractor_priority :
    (∀ (fs : List (String × Json)) (s : String),
      jsonParse (jsTrim s) = some (Json.obj fs) →
      extractStructuredJson (envJson (Json.obj fs)) = Json.obj fs ∧
      extractStructuredJson (envText s) = Json.obj fs ∧
      extractStructuredJson (envOutputText s) = Json.obj fs) ∧
    (∀ (fs : List (String × Json)) (s : String),
      extractStructuredJson (envBoth (Json.obj fs) s) = Json.obj fs) ∧
    (∀ data : Json, anyShapeYieldsJson data = false →
      extractStructuredJson data = Json.null) :=
  ⟨fun _ _ h => ⟨rfl, extract_envText h, extract_envOutputText h⟩,
   fun _ _ => rfl,
   fun _ h => extract_null_of_noShape h⟩

/-- C6 witness: the three envelope shapes agree on the payload
`{"a": 1}` and the failure direction fires on an empty envelope. -/
theorem c6_extractor_priority_witness :
    extractStructuredJson (envJson (Json.obj [("a", Json.num 1)])) =
      Json.obj [("a", Json.num 1)] ∧
    extractStructuredJson (envText "\x7b\"a\": 1\x7d") =
      Json.obj [("a", Json.num 1)] ∧
    extractStructuredJson (envOutputText "\x7b\"a\": 1\x7d") =
      Json.obj [("a", Json.num 1)] ∧
    extractStructuredJson (Json.obj []) = Json.null :=
  have h := c6_extractor_priority.1 [("a", Json.num 1)] "\x7b\"a\": 1\x7d" rfl
  ⟨h.1, h.2.1, h.2.2, c6_extractor_priority.2.2 (Json.obj []) rfl⟩

/-- C10 counterexample: with `ADMIN_TOKEN` set to the empty string and no
token header at all (a header that differs from the stored value), the
gate is open: `authOk` is `true` and POST proceeds instead of returning
401 Unauthorized. -/
theorem c10_counterexample :
    authOk (some "") none none = true ∧
    itemsGate "POST" (some "") none none = ItemsGateResult.proceeds ∧
    headerToken none none ≠ some "" :=
  ⟨rfl, rfl, by simp [headerToken]⟩

/-- C10 (amended): the gate is open by default — `authOk` accepts every
request when `ADMIN_TOKEN` is unset *or set to the empty string*; when it
is set to a non-empty value, POST and DELETE return 401 Unauthorized
exactly when the caller's token (the `x-admin-token` header, falling back
to `X-Admin-Token` when the former is absent or empty) differs from it. -/
theorem c10_auth_gate :
    (∀ hL hU : Option String, authOk none hL hU = true) ∧
    (∀ hL hU : Option String, authOk (some "") hL hU = true) ∧
    (∀ hL hU : Option String,
      itemsGate "POST" none hL hU = ItemsGateResult.proceeds) ∧
    (∀ (r : String) (hL hU : Option String), r ≠ "" →
      (itemsGate "POST" (some r) hL hU = ItemsGateResult.unauthorized ↔
        headerToken hL hU ≠ some r)) ∧
    (∀ (r : String) (hL hU : Option String), r ≠ "" →
      (itemsGate "DELETE" (some r) hL hU = ItemsGateResult.unauthorized ↔
        headerToken hL hU ≠ some r)) := by
  refine ⟨fun _ _ => rfl, fun _ _ => rfl, fun _ _ => rfl, ?_, ?_⟩ <;>
  · intro r hL hU hr
    rw [itemsGate, if_pos (by simp)]
    rw [authOk, if_neg hr]
    cases hH : headerToken hL hU with
    | none => simp
    | some tok =>
      by_cases htok : tok = r
      · simp [htok]
      · simp only [beq_eq_false_iff_ne, ne_eq, htok, not_false_eq_true,
          if_false, iff_true]
        · simp [htok]

/-- C10 witness: the amended gate law applied at concrete inputs. -/
theorem c10_auth_gate_witness :
    authOk none none none = true ∧
    (itemsGate "POST" (some "tok") (some "other") none =
      ItemsGateResult.unauthorized ↔ headerToken (some "other") none ≠ some "tok") ∧
    (itemsGate "DELETE" (some "tok") (some "tok") none =
      ItemsGateResult.unauthorized ↔ headerToken (some "tok") none ≠ some "tok") :=
  ⟨c10_auth_gate.1 none none,
   c10_auth_gate.2.2.2.1 "tok" (some "other") none (by decide),
   c10_auth_gate.2.2.2.2 "tok" (some "tok") none (by decide)⟩

/-! ## Claims C1–C5, C7, C8 -/

set_option maxRecDepth 200000 in
/-- C1: for a person-type enrichment with a successful facts resolution,
every field present in the bundle overrides the generator's value:
a bundle `birthYear` that is a number always lands in the record, and
`deathYear` is always overwritten (number if deceased, else the
definitive `null`); concretely, facts `{birthYear: 1950, deathYear:
null}` beat a generator payload carrying 1900/2000. -/
theorem c1_facts_override :
    (∀ (title : String) (wikiUrl : Option String) (yb : YearsBundle)
      (st : Nat) (raw : String) (rec : EnrichedRecord),
      handlerCore title "person" wikiUrl (some yb) true st raw =
        HandlerResult.ok rec →
      (∀ n : Nat, yb.birthYear = some n →
        rec.birthYear = some (Json.num (n : Int))) ∧
      rec.deathYear = some (match yb.deathYear with
        | some n => Json.num (n : Int)
        | none => Json.null)) ∧
    jsGet (extractedOf rawStaleYears) "birthYear" = some (Json.num 1900) ∧
    jsGet (extractedOf rawStaleYears) "deathYear" = some (Json.num 2000) ∧
    resultBirthYear (handlerCore "Jane Doe" "person" none
      (some { birthYear := some 1950, deathYear := none }) true 200
      rawStaleYears) = some (Json.num 1950) ∧
    resultDeathYear (handlerCore "Jane Doe" "person" none
      (some { birthYear := some 1950, deathYear := none }) true 200
      rawStaleYears) = some Json.null := by
  refine ⟨?_, rfl, rfl, rfl, rfl⟩
  intro title wikiUrl yb st raw rec h
  obtain ⟨-, data, hp, he, hrec⟩ := handlerCore_ok_inv h
  subst hrec
  constructor
  · intro n hn
    simp [buildRecord, hn]
  · cases hd : yb.deathYear <;> simp [buildRecord, hd]

set_option maxRecDepth 200000 in
/-- C1 witness: the override law applied at a concrete successful run. -/
theorem c1_facts_override_witness :
    ∃ rec : EnrichedRecord,
      handlerCore "Jane Doe" "person" none
        (some { birthYear := some 1950, deathYear := none }) true 200
        rawStaleYears = HandlerResult.ok rec ∧
      rec.birthYear = some (Json.num 1950) ∧
      rec.deathYear = some Json.null := by
  refine ⟨_, rfl, ?_, ?_⟩
  · exact (c1_facts_override.1 "Jane Doe" none
      { birthYear := some 1950, deathYear := none } 200 rawStaleYears _
      rfl).1 1950 rfl
  · exact (c1_facts_override.1 "Jane Doe" none
      { birthYear := some 1950, deathYear := none } 200 rawStaleYears _
      rfl).2

theorem strStartsWith_http_ne {u : String} (h : strStartsWith u "http" = true) :
    u ≠ "" := by
  intro he
  subst he
  exact absurd h (by decide)

/-- C2: the final record's `href` is determined by the Wikipedia resolver
alone — the resolved URL when present, else the sentinel `"kein Wiki"` —
never the generator's `href`; the resolver only ever returns a nonempty
URL starting with `"http"`, and a summary payload of type
`"disambiguation"` resolves to `none` (hence the sentinel). -/
theorem c2_href_verified :
    (∀ (title ty : String) (wikiUrl : Option String)
      (years : Option YearsBundle) (st : Nat) (raw : String)
      (rec : EnrichedRecord),
      handlerCore title ty wikiUrl years true st raw = HandlerResult.ok rec →
      rec.href = match wikiUrl with
        | some u => if u = "" then "kein Wiki" else u
        | none => "kein Wiki") ∧
    (∀ (t : String) (resp : Option (Bool × Json)) (u : String),
      wikipediaUrlForTitle t resp = some u →
      strStartsWith u "http" = true ∧ u ≠ "") ∧
    (∀ (t : String) (data : Json),
      jsStrEq (jsGet data "type") "disambiguation" = true →
      wikipediaUrlForTitle t (some (true, data)) = none) := by
  refine ⟨?_, ?_, ?_⟩
  · intro title ty wikiUrl years st raw rec h
    obtain ⟨-, data, hp, he, hrec⟩ := handlerCore_ok_inv h
    subst hrec
    rfl
  · intro t resp u h
    rcases resp with _ | ⟨ok, data⟩
    · unfold wikipediaUrlForTitle at h
      split at h
      · exact Option.noConfusion h
      · exact Option.noConfusion h
    · unfold wikipediaUrlForTitle at h
      repeat' split at h
      all_goals try exact Option.noConfusion h
      rename_i hsw
      injection h with hu
      subst hu
      exact ⟨hsw, strStartsWith_http_ne hsw⟩
  · intro t data hd
    unfold wikipediaUrlForTitle
    split
    · rfl
    · simp [hd]

/-- C2 witness: the href law applied at concrete resolver outcomes. -/
theorem c2_href_verified_witness :
    wikipediaUrlForTitle "X" (some (true, Json.obj
      [("content_urls", Json.obj [("desktop", Json.obj
        [("page", Json.str "https://en.wikipedia.org/wiki/X")])])])) =
      some "https://en.wikipedia.org/wiki/X" ∧
    (strStartsWith "https://en.wikipedia.org/wiki/X" "http" = true ∧
      "https://en.wikipedia.org/wiki/X" ≠ "") ∧
    wikipediaUrlForTitle "X" (some (true, Json.obj
      [("type", Json.str "disambiguation"),
       ("content_urls", Json.obj [("desktop", Json.obj
        [("page", Json.str "https://en.wikipedia.org/wiki/X")])])])) = none :=
  ⟨rfl,
   c2_href_verified.2.1 "X" (some (true, Json.obj
      [("content_urls", Json.obj [("desktop", Json.obj
        [("page", Json.str "https://en.wikipedia.org/wiki/X")])])]))
     "https://en.wikipedia.org/wiki/X" rfl,
   c2_href_verified.2.2 "X" (Json.obj
      [("type", Json.str "disambiguation"),
       ("content_urls", Json.obj [("desktop", Json.obj
        [("page", Json.str "https://en.wikipedia.org/wiki/X")])])]) rfl⟩

set_option maxRecDepth 200000 in
/-- C3 counterexample: a successful enrichment whose final tags are
`["-a", "-b"]` — entries that do not start with a letter or digit, so the
claimed slug-start condition fails on the code. -/
theorem c3_counterexample :
    resultTags (handlerCore "T" "topic" none none true 200 rawHyphenTags) =
      ["-a", "-b"] ∧
    startsWithAlnum "-a" = false :=
  ⟨rfl, rfl⟩

/-- C3 (amended): every successful enrichment response has 2–6 pairwise
distinct tags, each a nonempty string over `[a-z0-9_-]` with no leading
or trailing underscore (entries may begin or end with a hyphen), and each
tag comes from the cleaned generator tags or from the generic fallback
pad list. -/
theorem c3_tags_invariant :
    ∀ (title ty : String) (wikiUrl : Option String)
      (years : Option YearsBundle) (st : Nat) (raw : String)
      (rec : EnrichedRecord),
      handlerCore title ty wikiUrl years true st raw = HandlerResult.ok rec →
      2 ≤ rec.tags.length ∧ rec.tags.length ≤ 6 ∧ rec.tags.Nodup ∧
      ∀ t ∈ rec.tags, t ≠ "" ∧ (∀ c ∈ t.data, isTagChar c = true) ∧
        t.data.head? ≠ some '_' ∧ t.data.getLast? ≠ some '_' ∧
        (t ∈ cleanedTags raw ∨ t ∈ padList) := by
  intro title ty wikiUrl years st raw rec h
  obtain ⟨-, data, hp, he, hrec⟩ := handlerCore_ok_inv h
  subst hrec
  have htags : (buildRecord title ty wikiUrl years
      (extractStructuredJson data)).tags =
      normalizeTags (jsGet (extractStructuredJson data) "tags") := rfl
  rw [htags]
  have hext : extractedOf raw = extractStructuredJson data := by
    unfold extractedOf
    rw [hp]
  refine ⟨normalizeTags_length_ge _, normalizeTags_length_le _,
    normalizeTags_nodup _, ?_⟩
  intro t ht
  obtain ⟨⟨hall, hhd, hlast⟩, hne, -, hsrc⟩ := mem_normalizeTags ht
  refine ⟨hne, hall, hhd, hlast, ?_⟩
  unfold cleanedTags
  rw [hext]
  exact hsrc

set_option maxRecDepth 200000 in
/-- C3 witness: the amended invariant applied at a concrete run (the
generator supplied one usable tag `"x"`, so the result is padded). -/
theorem c3_tags_invariant_witness :
    ∃ rec : EnrichedRecord,
      handlerCore "T" "topic" none none true 200 rawShortSummary =
        HandlerResult.ok rec ∧ 2 ≤ rec.tags.length ∧ rec.tags.length ≤ 6 := by
  refine ⟨_, rfl, ?_⟩
  have h := c3_tags_invariant "T" "topic" none none 200 rawShortSummary _ rfl
  exact ⟨h.1, h.2.1⟩

theorem notEstablished_ne_empty : notEstablishedSummary ≠ "" := by decide

set_option maxRecDepth 200000 in
/-- C4: the final `summary` is either the generator's trimmed summary of
UTF-16 length at least 20, or exactly the "not established" sentinel;
it is never empty; a 5-character generator summary yields the sentinel. -/
theorem c4_summary_min_length :
    (∀ (title ty : String) (wikiUrl : Option String)
      (years : Option YearsBundle) (st : Nat) (raw : String)
      (rec : EnrichedRecord),
      handlerCore title ty wikiUrl years true st raw = HandlerResult.ok rec →
      ((rec.summary = summarySource raw ∧ 20 ≤ utf16Len rec.summary) ∨
        rec.summary = notEstablishedSummary) ∧ rec.summary ≠ "") ∧
    resultSummary (handlerCore "T" "topic" none none true 200
      rawShortSummary) = notEstablishedSummary := by
  refine ⟨?_, rfl⟩
  intro title ty wikiUrl years st raw rec h
  obtain ⟨-, data, hp, he, hrec⟩ := handlerCore_ok_inv h
  subst hrec
  have hext : extractedOf raw = extractStructuredJson data := by
    unfold extractedOf
    rw [hp]
  have hsum : (buildRecord title ty wikiUrl years
      (extractStructuredJson data)).summary =
      (if utf16Len (summarySource raw) < 20 then notEstablishedSummary
       else summarySource raw) := by
    unfold summarySource
    rw [hext]
    rfl
  rw [hsum]
  by_cases hlen : utf16Len (summarySource raw) < 20
  · rw [if_pos hlen]
    exact ⟨Or.inr rfl, notEstablished_ne_empty⟩
  · rw [if_neg hlen]
    push_neg at hlen
    refine ⟨Or.inl ⟨rfl, hlen⟩, ?_⟩
    intro he0
    rw [he0] at hlen
    exact absurd hlen (by decide)

/-- C5 counterexample: a generator body of `"{}"` (HTTP 200) parses as
JSON but yields no payload in any tolerated shape; the handler returns an
explicit 500 error, but its body contains no digit at all, so it does not
carry the upstream status as the claim states. -/
theorem c5_counterexample :
    handlerCore "T" "topic" none none true 200 "\x7b\x7d" =
      HandlerResult.err 500 (failBody "\x7b\x7d") ∧
    (failBody "\x7b\x7d").data.all (fun c => !c.isDigit) = true :=
  ⟨rfl, rfl⟩

/-- C5 (amended): a non-2xx generator response yields an explicit 500
error whose body carries the upstream status and raw body; a 2xx response
whose parsed body yields no extractable payload yields an explicit 500
error whose body carries the raw upstream body (but not the status); in
both cases no record is returned, even if the fact resolvers succeeded —
whereas fact-resolver failures (`none` results) never abort a successful
generation. -/
theorem c5_generator_failure_fatal :
    (∀ (title ty : String) (wikiUrl : Option String)
      (years : Option YearsBundle) (st : Nat) (raw : String),
      handlerCore title ty wikiUrl years false st raw =
        HandlerResult.err 500 ("OpenAI error " ++ toString st ++ ": " ++ raw)) ∧
    (∀ (title ty : String) (wikiUrl : Option String)
      (years : Option YearsBundle) (st : Nat) (raw : String) (data : Json),
      jsonParse raw = some data → (extractStructuredJson data).truthy = false →
      handlerCore title ty wikiUrl years true st raw =
        HandlerResult.err 500 (failBody raw)) ∧
    (∀ (title ty : String) (st : Nat) (raw : String) (data : Json),
      jsonParse raw = some data → (extractStructuredJson data).truthy = true →
      ∃ rec, handlerCore title ty none none true st raw =
        HandlerResult.ok rec) := by
  refine ⟨fun _ _ _ _ _ _ => rfl, ?_, ?_⟩
  · intro title ty wikiUrl years st raw data hp he
    simp only [handlerCore, Bool.not_true, Bool.false_eq_true, if_false]
    rw [hp]
    show (if (!(extractStructuredJson data).truthy) = true then
        HandlerResult.err 500 (failBody raw)
      else HandlerResult.ok (buildRecord title ty wikiUrl years
        (extractStructuredJson data))) = HandlerResult.err 500 (failBody raw)
    rw [he]
    simp
  · intro title ty st raw data hp he
    exact ⟨_, handlerCore_ok_of_truthy hp he⟩

set_option maxRecDepth 200000 in
/-- C5 witness: the failure law applied at concrete inputs — a 502
failure body, an unextractable 200 body, and a successful run with both
resolvers failed. -/
theorem c5_generator_failure_fatal_witness :
    handlerCore "T" "topic" (some "https://x") none false 502 "boom" =
      HandlerResult.err 500 ("OpenAI error " ++ toString 502 ++ ": " ++ "boom") ∧
    handlerCore "T" "topic" none none true 200 "\x7b\x7d" =
      HandlerResult.err 500 (failBody "\x7b\x7d") ∧
    ∃ rec, handlerCore "T" "topic" none none true 200 rawShortSummary =
      HandlerResult.ok rec :=
  ⟨c5_generator_failure_fatal.1 "T" "topic" (some "https://x") none 502 "boom",
   c5_generator_failure_fatal.2.1 "T" "topic" none none 200 "\x7b\x7d"
     (Json.obj []) rfl rfl,
   c5_generator_failure_fatal.2.2 "T" "topic" 200 rawShortSummary _ rfl rfl⟩

/-- C7: the cross-reference resolver returns only identifiers matching
`Q` followed by digits, or `none`; a transport error, a non-2xx response,
and a payload without the expected structure all yield `none` (the
modelled function is total, i.e. never throws, and consults exactly one
response). -/
theorem c7_qid_contract :
    (∀ (t : String) (resp : Option (Bool × Json)) (q : String),
      wikipediaQidForTitle t resp = some q → isQid q = true) ∧
    (∀ t : String, wikipediaQidForTitle t none = none) ∧
    (∀ (t : String) (data : Json),
      wikipediaQidForTitle t (some (false, data)) = none) ∧
    (∀ (t : String) (b : Bool),
      wikipediaQidForTitle t (some (b, Json.obj [])) = none) := by
  refine ⟨?_, ?_, ?_, ?_⟩
  · intro t resp q h
    rcases resp with _ | ⟨ok, data⟩
    · unfold wikipediaQidForTitle at h
      split at h
      · exact Option.noConfusion h
      · exact Option.noConfusion h
    · unfold wikipediaQidForTitle at h
      repeat' split at h
      all_goals try exact Option.noConfusion h
      all_goals simp only [] at h
      all_goals repeat' split at h
      all_goals try exact Option.noConfusion h
      all_goals rename_i hq
      all_goals injection h with hu
      all_goals subst hu
      all_goals exact hq
  · intro t
    unfold wikipediaQidForTitle
    split
    · rfl
    · rfl
  · intro t data
    unfold wikipediaQidForTitle
    split
    · rfl
    · rfl
  · intro t b
    unfold wikipediaQidForTitle
    split
    · rfl
    · cases b
      · rfl
      · rfl

/-- C7 witness: the QID contract applied at a concrete response carrying
`Q317521`, plus the degraded outcomes. -/
theorem c7_qid_contract_witness :
    isQid "Q317521" = true ∧
    wikipediaQidForTitle "X" none = none ∧
    wikipediaQidForTitle "X" (some (false, Json.obj [])) = none :=
  ⟨c7_qid_contract.1 "X" (some (true, Json.obj [("query", Json.obj
      [("pages", Json.obj [("123", Json.obj [("pageprops", Json.obj
        [("wikibase_item", Json.str "Q317521")])])])])])) "Q317521" rfl,
   c7_qid_contract.2.1 "X",
   c7_qid_contract.2.2.1 "X" (Json.obj [])⟩

/-- C8: the year parser maps exactly the strings of shape
sign-digits-hyphen to the value of the digit run and everything else to
`none`; in the facts bundle the two year fields are parsed independently
from their own claims, so a malformed birth date only nulls `birthYear`. -/
theorem c8_year_parsing :
    (∀ (c : Char) (ds rest : List Char),
      (c = '+' ∨ c = '-') → ds ≠ [] → (∀ d ∈ ds, d.isDigit = true) →
      yearFromWikidataTime (some (Json.str
        (String.mk (c :: (ds ++ '-' :: rest))))) = some (digitsToNat ds)) ∧
    (∀ t : Option Json, (yearFromWikidataTime t).isSome = true →
      ∃ (c : Char) (ds rest : List Char),
        t = some (Json.str (String.mk (c :: (ds ++ '-' :: rest)))) ∧
        (c = '+' ∨ c = '-') ∧ ds ≠ [] ∧ ∀ d ∈ ds, d.isDigit = true) ∧
    (∀ (qid : String) (bt dt : Json), qid ≠ "" →
      wikidataYearsForQid qid (some (true, mkEntityData qid bt dt)) =
        some { birthYear := yearFromWikidataTime (some bt)
               deathYear := yearFromWikidataTime (some dt) }) := by
  refine ⟨?_, ?_, ?_⟩
  · intro c ds rest hc hds hdig
    show (if (c == '+' || c == '-') = true then
        (if ((ds ++ '-' :: rest).takeWhile Char.isDigit).isEmpty = true then
          none
         else
          match (ds ++ '-' :: rest).dropWhile Char.isDigit with
          | d :: _ =>
            if (d == '-') = true then
              some (digitsToNat ((ds ++ '-' :: rest).takeWhile Char.isDigit))
            else none
          | [] => none)
      else none) = some (digitsToNat ds)
    rw [if_pos (by rcases hc with h | h <;> simp [h])]
    rw [takeWhile_append_of_all hdig (by decide),
      dropWhile_append_of_all hdig (by decide)]
    rw [if_neg (fun hemp => hds (List.isEmpty_iff.mp hemp))]
    simp
  · intro t h
    cases t with
    | none => simp [yearFromWikidataTime] at h
    | some j =>
      cases j with
      | str s =>
        cases hsd : s.data with
        | nil =>
          simp only [yearFromWikidataTime] at h
          rw [hsd] at h
          simp at h
        | cons c rest0 =>
          simp only [yearFromWikidataTime] at h
          rw [hsd] at h
          replace h : (if (c == '+' || c == '-') = true then
              (if ((rest0.takeWhile Char.isDigit).isEmpty) = true then
                (none : Option Nat)
               else
                match rest0.dropWhile Char.isDigit with
                | d :: _ =>
                  if (d == '-') = true then
                    some (digitsToNat (rest0.takeWhile Char.isDigit))
                  else none
                | [] => none)
            else none).isSome = true := h
          by_cases hsign : (c == '+' || c == '-') = true
          · rw [if_pos hsign] at h
            by_cases hemp : ((rest0.takeWhile Char.isDigit).isEmpty) = true
            · rw [if_pos hemp] at h
              simp at h
            · rw [if_neg hemp] at h
              cases hdrop : rest0.dropWhile Char.isDigit with
              | nil =>
                rw [hdrop] at h
                simp at h
              | cons d tail =>
                rw [hdrop] at h
                replace h : (if (d == '-') = true then
                    some (digitsToNat (rest0.takeWhile Char.isDigit))
                  else (none : Option Nat)).isSome = true := h
                by_cases hd : (d == '-') = true
                · have hdeq : d = '-' := by simpa using hd
                  subst hdeq
                  have hrest : rest0 =
                      rest0.takeWhile Char.isDigit ++ '-' :: tail := by
                    rw [← hdrop]
                    exact (List.takeWhile_append_dropWhile Char.isDigit rest0).symm
                  refine ⟨c, rest0.takeWhile Char.isDigit, tail, ?_, ?_, ?_, ?_⟩
                  · have hs : s = String.mk
                        (c :: (rest0.takeWhile Char.isDigit ++ '-' :: tail)) := by
                      have hd2 : s.data =
                          c :: (rest0.takeWhile Char.isDigit ++ '-' :: tail) := by
                        rw [hsd]
                        exact congrArg (c :: ·) hrest
                      cases s with
                      | mk l => exact congrArg String.mk hd2
                    rw [hs]
                  · simpa using hsign
                  · intro hnil
                    exact hemp (by rw [hnil]; rfl)
                  · intro d' hd'
                    exact List.mem_takeWhile_imp hd'
                · rw [if_neg hd] at h
                  simp at h
          · rw [if_neg hsign] at h
            simp at h
      | null =>
        replace h : (none : Option Nat).isSome = true := h
        simp at h
      | bool b =>
        replace h : (none : Option Nat).isSome = true := h
        simp at h
      | num n =>
        replace h : (none : Option Nat).isSome = true := h
        simp at h
      | arr xs =>
        replace h : (none : Option Nat).isSome = true := h
        simp at h
      | obj fs =>
        replace h : (none : Option Nat).isSome = true := h
        simp at h
  · intro qid bt dt hq
    unfold wikidataYearsForQid
    rw [if_neg hq]
    simp [mkEntityData, jsChain, jsGet, jsIndex, jsOrElse, Json.truthy,
      List.lookup]

set_option maxRecDepth 10000 in
/-- C8 witness: the parsing law at `"+1971-06-28T00:00:00Z"` and the
bundle independence at a malformed birth time with a valid death time. -/
theorem c8_year_parsing_witness :
    yearFromWikidataTime (some (Json.str "+1971-06-28T00:00:00Z")) =
      some 1971 ∧
    wikidataYearsForQid "Q1" (some (true, mkEntityData "Q1"
      (Json.str "garbage") (Json.str "+2000-01-01T00:00:00Z"))) =
      some { birthYear := none, deathYear := some 2000 } := by
  constructor
  · have h := c8_year_parsing.1 '+' ['1', '9', '7', '1']
      "06-28T00:00:00Z".data (Or.inl rfl) (by decide) (by decide)
    exact h
  · have h := c8_year_parsing.2.2 "Q1" (Json.str "garbage")
      (Json.str "+2000-01-01T00:00:00Z") (by decide)
    rw [h]
    rfl

set_option maxRecDepth 200000 in
/-- C4 witness: the summary law applied at a concrete run whose generator
summary is long enough to be kept. -/
theorem c4_summary_min_length_witness :
    ∃ rec : EnrichedRecord,
      handlerCore "T" "topic" none none true 200 rawStaleYears =
        HandlerResult.ok rec ∧
      ((rec.summary = summarySource rawStaleYears ∧
        20 ≤ utf16Len rec.summary) ∨
        rec.summary = notEstablishedSummary) ∧ rec.summary ≠ "" := by
  refine ⟨_, rfl, ?_⟩
  exact c4_summary_min_length.1 "T" "topic" none none 200 rawStaleYears _ rfl
